import Mathlib

/-!
Shallow embedding of the retried library (a Deno/TypeScript rewrite of the
node retry module): the timeout-sequence generator (src/unnamed/part_000,
exporting operation / timeouts / createTimeout) and the RetryOperation state
machine (src/lib/retryOperation.ts).

Conventions of the embedding:
- JS numbers are rationals; a possibly-Infinity number is an Option value
  where none encodes Infinity; Date.getTime results are rationals supplied
  by the caller as explicit clock inputs.
- Timer handles (this.timeout, this.timer) are modelled by pending flags:
  true while the underlying timer is scheduled and not yet fired/cleared.
- The caller-supplied work function and watchdog callback are external; the
  embedding records whether they are set (hasFn, hasOperationTimeoutFn),
  and fireWatchdog models running the scheduled watchdog callback, with
  none standing for the TypeError raised when the callback is undefined.
- Math.random() draws are passed in explicitly as rand arguments, so the
  generator stays a pure function of its inputs.
- retries = Infinity is not representable (the source would loop forever in
  timeouts for that input); retries is a natural number.
-/

/-- A JS Error value: its message plus a tag distinguishing object identity. -/
structure Err where
  message : String
  tag : Nat
deriving DecidableEq, Repr

namespace Retried

/-- x >= m where the bound m is a JS number with none encoding Infinity
(anything compares below Infinity). -/
def jsGe (x : ℚ) (m : Option ℚ) : Bool :=
  match m with
  | none => false
  | some y => decide (y ≤ x)

/-- Math.min x m where m may be Infinity (none). -/
def jsMin (x : ℚ) (m : Option ℚ) : ℚ :=
  match m with
  | none => x
  | some y => min x y

/-- x <= m where m may be Infinity (none). -/
def leJs (x : ℚ) (m : Option ℚ) : Prop :=
  match m with
  | none => True
  | some y => x ≤ y

/-- JS truthiness of a possibly-absent number: absent and 0 are falsy. -/
def truthyNum : Option ℚ → Bool
  | none => false
  | some v => decide (v ≠ 0)

/-- The mutable fields of a RetryOperation (src/lib/retryOperation.ts). -/
structure RetryState where
  attempts : Nat
  errors : List Err
  timeouts : List ℚ
  originalTimeouts : List ℚ
  forever : Bool
  maxRetryTime : Option ℚ
  cachedTimeouts : Option (List ℚ)
  operationStart : Option ℚ
  operationTimeout : Option ℚ
  hasOperationTimeoutFn : Bool
  hasFn : Bool
  timeoutPending : Bool
  timerPending : Bool
deriving DecidableEq, Repr

/-- The RetryOperation constructor: copies the timeout array into
originalTimeouts, stores options, starts with no errors and attempts = 1,
and caches the timeouts when forever is set. -/
def RetryOperation.new (timeouts : List ℚ) (forever : Bool)
    (maxRetryTime : Option ℚ) : RetryState :=
  { attempts := 1
    errors := []
    timeouts := timeouts
    originalTimeouts := timeouts
    forever := forever
    maxRetryTime := maxRetryTime
    cachedTimeouts := if forever then some timeouts else none
    operationStart := none
    operationTimeout := none
    hasOperationTimeoutFn := false
    hasFn := false
    timeoutPending := false
    timerPending := false }

/-- reset(): attempts = 1 and timeouts = originalTimeouts.slice(0). -/
def reset (s : RetryState) : RetryState :=
  { s with attempts := 1, timeouts := s.originalTimeouts }

/-- stop(): clears both timers, empties timeouts, discards cachedTimeouts. -/
def stop (s : RetryState) : RetryState :=
  { s with timeoutPending := false
           timerPending := false
           timeouts := []
           cachedTimeouts := none }

/-- succeed(): clearTimeout(this.timeout) and nothing else. -/
def succeed (s : RetryState) : RetryState :=
  { s with timeoutPending := false }

/-- The optional second argument of attempt(); the watchdog callback itself
is external and required by the type whenever the record is present. -/
structure AttemptTimeoutOptions where
  timeout : Option ℚ := none
deriving DecidableEq, Repr

/-- attempt(fn, timeoutOptions?): stores fn, records operationStart = now,
invokes fn (external), and when a truthy timeout and a callback are supplied
stores them (the source also schedules an anonymous watchdog timer here
whose handle is discarded, so it is never cancellable; it is not part of the
state). -/
def attempt (s : RetryState) (now : ℚ)
    (timeoutOptions : Option AttemptTimeoutOptions) : RetryState :=
  let s := { s with hasFn := true, operationStart := some now }
  match timeoutOptions with
  | some o =>
      if truthyNum o.timeout then
        { s with operationTimeout := o.timeout, hasOperationTimeoutFn := true }
      else s
  | none => s

/-- The synthetic error unshifted when the wall-clock budget is exceeded. -/
def retryTimeoutError : Err := { message := "RetryOperation timeout occurred", tag := 0 }

/-- The guard of the wall-clock budget branch of retry():
err && this.operationStart && currentTime - this.operationStart >= this.maxRetryTime,
for a truthy err (Error objects are always truthy); a numeric
operationStart is truthy when nonzero. -/
def budgetExceeded (s : RetryState) (currentTime : ℚ) : Bool :=
  match s.operationStart with
  | none => false
  | some t0 => decide (t0 ≠ 0) && jsGe (currentTime - t0) s.maxRetryTime

/-- The outcome of one retry() call: its boolean result, the state after the
call, and the awaited backoff delay: none when retry returned without
suspending, some d when it awaited a timer of JS duration d (the inner none
is the undefined duration taken from an empty forever cache). -/
structure RetryResult where
  result : Bool
  state : RetryState
  waited : Option (Option ℚ)
deriving DecidableEq, Repr

/-- The tail of retry() after the awaited backoff timer fires:
this.attempts++, this.fn!(attempts) (external), and unconditionally
this.timeout = setTimeout(() => this.operationTimeoutFn!(attempts),
this.operationTimeout) - the watchdog becomes pending whether or not a
callback was ever configured. -/
def retryAfterWait (s : RetryState) (d : Option ℚ) : RetryResult :=
  { result := true
    state := { s with attempts := s.attempts + 1
                      timerPending := false
                      timeoutPending := true }
    waited := some d }

/-- retry(err) for a truthy err, with currentTime the value of
new Date().getTime() observed inside the call. -/
def retry (s : RetryState) (err : Err) (currentTime : ℚ) : RetryResult :=
  let s := { s with timeoutPending := false }
  if budgetExceeded s currentTime then
    { result := false
      state := { s with errors := retryTimeoutError :: (s.errors ++ [err]) }
      waited := none }
  else
    let s := { s with errors := s.errors ++ [err] }
    match s.timeouts, s.cachedTimeouts with
    | t0 :: rest, _ =>
        retryAfterWait { s with timeouts := rest } (some t0)
    | [], some cache =>
        retryAfterWait
          { s with errors := s.errors.drop (s.errors.length - 1) }
          cache.getLast?
    | [], none =>
        { result := false, state := s, waited := none }

/-- Running the watchdog callback scheduled by retry():
() => this.operationTimeoutFn!(this.attempts). Returns the attempt count it
passes to the callback; none models the TypeError raised when no callback
was ever configured (operationTimeoutFn is undefined). -/
def fireWatchdog (s : RetryState) : Option Nat :=
  if s.hasOperationTimeoutFn then some s.attempts else none

/-- The options record (OperationOptions extends TimeoutsOptions extends
CreateTimeoutOptions in the source); every field is optional. A none
maxTimeout or maxRetryTime stands for absent-or-Infinity: both resolve
identically since the defaults are Infinity. -/
structure OperationOptions where
  retries : Option Nat := none
  factor : Option ℚ := none
  minTimeout : Option ℚ := none
  maxTimeout : Option ℚ := none
  randomize : Option Bool := none
  forever : Option Bool := none
  maxRetryTime : Option ℚ := none
deriving DecidableEq, Repr

/-- createTimeout(attempt, params) with the Math.random() draw passed in
explicitly as rand: merges the defaults factor = 2, minTimeout = 1000,
maxTimeout = Infinity, randomize = false, computes
Math.round(random * Math.max(minTimeout, 1) * factor ^ attempt) and clamps
it with Math.min against maxTimeout. -/
def createTimeout (attempt : Nat) (params : OperationOptions) (rand : ℚ) : ℚ :=
  let factor := params.factor.getD 2
  let minTimeout := params.minTimeout.getD 1000
  let maxTimeout := params.maxTimeout
  let randomize := params.randomize.getD false
  let random : ℚ := if randomize then rand + 1 else 1
  let timeout : ℚ := ((round (random * max minTimeout 1 * factor ^ attempt) : ℤ) : ℚ)
  jsMin timeout maxTimeout

/-- The eager configuration check of timeouts():
options.minTimeout > options.maxTimeout after merging defaults. -/
def timeoutsCheckFails (params : OperationOptions) : Bool :=
  match params.maxTimeout with
  | none => false
  | some m => decide (params.minTimeout.getD 1000 > m)

/-- timeouts(params) with the per-index Math.random() draws passed in as
rand: merges the defaults retries = 10, minTimeout = 1000,
maxTimeout = Infinity, forever = false, throws when minTimeout > maxTimeout,
builds createTimeout(i) for i in [0, retries), appends one extra entry when
forever is set and the list is empty, and sorts numerically ascending. -/
def timeouts (params : OperationOptions) (rand : Nat → ℚ) :
    Except String (List ℚ) :=
  let retries := params.retries.getD 10
  let minTimeout := params.minTimeout.getD 1000
  let forever := params.forever.getD false
  let merged := { params with retries := some retries
                              minTimeout := some minTimeout
                              forever := some forever }
  if timeoutsCheckFails params then
    .error "minTimeout is greater than maxTimeout"
  else
    let base := (List.range retries).map fun i => createTimeout i merged (rand i)
    let ts :=
      if forever && base.isEmpty then
        base ++ [createTimeout retries merged (rand retries)]
      else base
    .ok (ts.insertionSort (· ≤ ·))

/-- operation(options): builds the timeout sequence, then constructs the
RetryOperation with forever = options.forever || options.retries === Infinity
(an Infinity retries is not representable here, see the header) and
maxRetryTime = options.maxRetryTime || Infinity. -/
def operation (options : OperationOptions) (rand : Nat → ℚ) :
    Except String RetryState :=
  (timeouts options rand).map fun ts =>
    RetryOperation.new ts (options.forever.getD false)
      (if truthyNum options.maxRetryTime then options.maxRetryTime else none)

/-- The loop state of getMainError(): the counts object keyed by message
(a missing key reads as 0 via the || 0), the best error so far and its
count. -/
structure MainErrorState where
  counts : String → Nat
  mainError : Option Err
  mainErrorCount : Nat

/-- One iteration of the for-of loop of getMainError(): bump the count of
the message of this error and, when count >= mainErrorCount, take it as
the new main error. -/
def getMainErrorStep (st : MainErrorState) (e : Err) : MainErrorState :=
  let count := st.counts e.message + 1
  let counts : String → Nat := fun m => if m = e.message then count else st.counts m
  if count ≥ st.mainErrorCount then
    { counts := counts, mainError := some e, mainErrorCount := count }
  else
    { st with counts := counts }

/-- The initial loop state of getMainError(): empty counts object, mainError
undefined, mainErrorCount 0. -/
def initMainErrorState : MainErrorState :=
  { counts := fun _ => 0, mainError := none, mainErrorCount := 0 }

/-- getMainError(): a single forward pass over the errors. -/
def getMainError (errors : List Err) : Option Err :=
  (errors.foldl getMainErrorStep initMainErrorState).mainError

/-- Modelled from the spec wording, to compare getMainError against: the
number of errors in the list sharing the message m. -/
def msgCount (errors : List Err) (m : String) : Nat :=
  errors.countP (fun e => e.message == m)

/-- Modelled from the spec wording: the highest occurrence count over the
messages appearing in the list (0 when the list is empty). -/
def maxMsgCount (errors : List Err) : Nat :=
  (errors.map (fun e => msgCount errors e.message)).foldr max 0

/-- Modelled from the spec wording: the error whose message had the highest
count, ties broken in favor of the last-seen error sharing the max count,
none when the list is empty - rendered as the first error, scanning from the
end, whose message attains the maximum count. -/
def mainErrorSpec (errors : List Err) : Option Err :=
  errors.reverse.find? (fun e => msgCount errors e.message == maxMsgCount errors)

/-! Concrete instances used to exercise the model on explicit inputs. -/

/-- A degenerate stream of Math.random() draws (unused when randomize is
false, the default). -/
def zeroRand : Nat → ℚ := fun _ => 0

/-- A sample error fed to retry. -/
def errX : Err := { message := "x", tag := 9 }

/-- A second sample error. -/
def errY : Err := { message := "y", tag := 8 }

/-- The operation built by operation with retries = 3 and defaults
otherwise: timeout sequence 1000, 2000, 4000, no forever cache, infinite
wall-clock budget. -/
def c1Op : RetryState := RetryOperation.new [1000, 2000, 4000] false none

/-- c1Op after attempt(fn) at clock 1 with no per-attempt timeout. -/
def c1s0 : RetryState := attempt c1Op 1 none

/-- First retry call on the retries = 3 operation. -/
def c1r1 : RetryResult := retry c1s0 errX 100

/-- Second retry call. -/
def c1r2 : RetryResult := retry c1r1.state errX 1200

/-- Third retry call. -/
def c1r3 : RetryResult := retry c1r2.state errX 3300

/-- Fourth retry call: the timeout queue is exhausted. -/
def c1r4 : RetryResult := retry c1r3.state errX 7400

/-- An operation with a single 1000ms timeout and maxRetryTime = 500,
after attempt(fn) at clock 5. -/
def c2s : RetryState := attempt (RetryOperation.new [1000] false (some 500)) 5 none

/-- A forever operation with original sequence [500], after attempt(fn) at
clock 1. -/
def c3s0 : RetryState := attempt (RetryOperation.new [500] true none) 1 none

/-- The forever operation after the retry that consumed its only queued
timeout: remainingTimeouts is empty, the cache holds the original
sequence. -/
def c3s : RetryState := (retry c3s0 errX 10).state

/-- An operation on which attempt(fn) was called with no timeoutOptions:
no watchdog is configured. -/
def c7s : RetryState := attempt (RetryOperation.new [1000] false none) 1 none

/-- A state in which both the watchdog timer and the retry/backoff timer
are pending, as during the suspension inside retry when the backoff timer
has been scheduled and the previous watchdog is still live. -/
def c8s : RetryState :=
  { RetryOperation.new [1000] false none with
      timerPending := true, timeoutPending := true }

/-- The empty options record: every field absent, all defaults apply. -/
def defaultOpts : OperationOptions := {}

/-- The concrete parameters of the C5 example: factor 2, minTimeout 1000,
no ceiling, no randomization. -/
def c5opts : OperationOptions :=
  { factor := some 2, minTimeout := some 1000,
    maxTimeout := none, randomize := some false }

/-- Options with an explicitly falsy (zero) maxRetryTime. -/
def c10opts : OperationOptions := { retries := some 1, maxRetryTime := some 0 }

/-- The operation those options construct. -/
def c10op : RetryState := RetryOperation.new [1000] false none

/-! Unfolding lemmas for the four control paths of retry. -/

lemma budgetExceeded_clearTimeout (s : RetryState) (t : ℚ) :
    budgetExceeded { s with timeoutPending := false } t = budgetExceeded s t := rfl

lemma retry_of_budgetExceeded (s : RetryState) (err : Err) (t : ℚ)
    (h : budgetExceeded s t = true) :
    retry s err t =
      { result := false
        state := { s with timeoutPending := false
                          errors := retryTimeoutError :: (s.errors ++ [err]) }
        waited := none } := by
  simp only [retry]
  split
  · rfl
  · rename_i hfalse
    rw [budgetExceeded_clearTimeout, h] at hfalse
    exact absurd rfl hfalse

lemma retry_of_shift (s : RetryState) (err : Err) (t : ℚ) (t0 : ℚ) (rest : List ℚ)
    (h : budgetExceeded s t = false) (hts : s.timeouts = t0 :: rest) :
    retry s err t =
      retryAfterWait
        { s with timeoutPending := false
                 errors := s.errors ++ [err]
                 timeouts := rest } (some t0) := by
  simp only [retry]
  split
  · rename_i htrue
    rw [budgetExceeded_clearTimeout, h] at htrue
    exact absurd htrue (by simp)
  · rw [hts]

lemma retry_of_forever (s : RetryState) (err : Err) (t : ℚ) (cache : List ℚ)
    (h : budgetExceeded s t = false) (hts : s.timeouts = [])
    (hc : s.cachedTimeouts = some cache) :
    retry s err t =
      retryAfterWait
        { s with timeoutPending := false
                 errors := (s.errors ++ [err]).drop ((s.errors ++ [err]).length - 1) }
        cache.getLast? := by
  simp only [retry]
  split
  · rename_i htrue
    rw [budgetExceeded_clearTimeout, h] at htrue
    exact absurd htrue (by simp)
  · rw [hts, hc]

lemma retry_of_exhausted (s : RetryState) (err : Err) (t : ℚ)
    (h : budgetExceeded s t = false) (hts : s.timeouts = [])
    (hc : s.cachedTimeouts = none) :
    retry s err t =
      { result := false
        state := { s with timeoutPending := false, errors := s.errors ++ [err] }
        waited := none } := by
  simp only [retry]
  split
  · rename_i htrue
    rw [budgetExceeded_clearTimeout, h] at htrue
    exact absurd htrue (by simp)
  · rw [hts, hc]

/-- C1: for an operation whose wall-clock budget has not been exceeded,
retry(error) returns true exactly when a delay is still available (a timeout
remains in remainingTimeouts, or the forever cache supplies one) and false
otherwise; a false return incurs no delay; after stop() every retry call
returns false immediately without waiting, and the state stays emptied; with
retries = 3 and not forever, the first three retry calls return true and the
fourth returns false. -/
theorem retry_true_iff_delay_available (s : RetryState) (err : Err) (t : ℚ)
    (hb : budgetExceeded s t = false) :
    ((retry s err t).result = true ↔ (s.timeouts ≠ [] ∨ s.cachedTimeouts ≠ none))
    ∧ ((retry s err t).result = false → (retry s err t).waited = none)
    ∧ (∀ (s' : RetryState) (e : Err) (t' : ℚ),
        (retry (stop s') e t').result = false
        ∧ (retry (stop s') e t').waited = none
        ∧ (retry (stop s') e t').state.timeouts = []
        ∧ (retry (stop s') e t').state.cachedTimeouts = none)
    ∧ operation { retries := some 3 } zeroRand = .ok c1Op
    ∧ c1r1.result = true ∧ c1r2.result = true ∧ c1r3.result = true
    ∧ c1r4.result = false ∧ c1r4.waited = none := by
  refine ⟨?_, ?_, ?_, ?_, rfl, rfl, rfl, rfl, rfl⟩
  · rcases hts : s.timeouts with _ | ⟨t0, rest⟩
    · rcases hc : s.cachedTimeouts with _ | cache
      · rw [retry_of_exhausted s err t hb hts hc]
        simp
      · rw [retry_of_forever s err t cache hb hts hc]
        simp [retryAfterWait, hc]
    · rw [retry_of_shift s err t t0 rest hb hts]
      simp [retryAfterWait, hts]
  · intro hf
    rcases hts : s.timeouts with _ | ⟨t0, rest⟩
    · rcases hc : s.cachedTimeouts with _ | cache
      · rw [retry_of_exhausted s err t hb hts hc]
      · rw [retry_of_forever s err t cache hb hts hc] at hf
        simp [retryAfterWait] at hf
    · rw [retry_of_shift s err t t0 rest hb hts] at hf
      simp [retryAfterWait] at hf
  · intro s' e t'
    cases hbs : budgetExceeded (stop s') t' with
    | true =>
        rw [retry_of_budgetExceeded _ e t' hbs]
        exact ⟨rfl, rfl, rfl, rfl⟩
    | false =>
        rw [retry_of_exhausted _ e t' hbs rfl rfl]
        exact ⟨rfl, rfl, rfl, rfl⟩
  · norm_num [operation, timeouts, timeoutsCheckFails, createTimeout, List.range_succ,
      round_eq, List.insertionSort, List.orderedInsert, zeroRand, jsMin, Except.map,
      RetryOperation.new, truthyNum, c1Op]

/-- Witness for C1 at the concrete retries = 3 operation after its first
attempt: the budget is not exceeded and the first retry call returns true
because a timeout remains. -/
theorem retry_true_iff_delay_available_witness :
    budgetExceeded c1s0 100 = false
    ∧ ((retry c1s0 errX 100).result = true
        ↔ (c1s0.timeouts ≠ [] ∨ c1s0.cachedTimeouts ≠ none)) :=
  ⟨rfl, (retry_true_iff_delay_available c1s0 errX 100 rfl).1⟩

/-- C2: when retry(error) is called with the elapsed time at least
maxRetryTime, it appends the error, prepends the synthetic timeout error at
index 0, and returns false without waiting, regardless of the remaining
timeouts. -/
theorem retry_budget_exceeded_prepends_timeout (s : RetryState) (err : Err)
    (t t0 : ℚ) (h1 : s.operationStart = some t0) (h2 : t0 ≠ 0)
    (h3 : jsGe (t - t0) s.maxRetryTime = true) :
    (retry s err t).result = false
    ∧ (retry s err t).state.errors = retryTimeoutError :: (s.errors ++ [err])
    ∧ retryTimeoutError.message = "RetryOperation timeout occurred"
    ∧ (retry s err t).waited = none := by
  have hb : budgetExceeded s t = true := by
    simp [budgetExceeded, h1, h2, h3]
  rw [retry_of_budgetExceeded s err t hb]
  exact ⟨rfl, rfl, rfl, rfl⟩

/-- Witness for C2: the maxRetryTime = 500 operation, first attempt at
clock 5, retry called at clock 600 with one timeout still queued. -/
theorem retry_budget_exceeded_prepends_timeout_witness :
    c2s.operationStart = some 5 ∧ (5 : ℚ) ≠ 0
    ∧ jsGe (600 - 5) c2s.maxRetryTime = true
    ∧ ((retry c2s errX 600).result = false
        ∧ (retry c2s errX 600).state.errors
            = retryTimeoutError :: (c2s.errors ++ [errX])) :=
  ⟨rfl, by norm_num, by norm_num [jsGe, c2s, attempt, RetryOperation.new],
    (retry_budget_exceeded_prepends_timeout c2s errX 600 5 rfl (by norm_num)
        (by norm_num [jsGe, c2s, attempt, RetryOperation.new])).1,
    (retry_budget_exceeded_prepends_timeout c2s errX 600 5 rfl (by norm_num)
        (by norm_num [jsGe, c2s, attempt, RetryOperation.new])).2.1⟩

/-- C3: in forever mode, once remainingTimeouts is exhausted, a retry call
within the budget returns true, waits for the last entry of the original
timeout sequence, increments attempts, and leaves errors holding only the
most recent failure. -/
theorem retry_forever_reuses_last_timeout (s : RetryState) (err : Err) (t : ℚ)
    (hb : budgetExceeded s t = false) (hts : s.timeouts = [])
    (hc : s.cachedTimeouts = some s.originalTimeouts)
    (hne : s.originalTimeouts ≠ []) :
    (retry s err t).result = true
    ∧ (retry s err t).waited = some (some (s.originalTimeouts.getLast hne))
    ∧ (retry s err t).state.errors = [err]
    ∧ (retry s err t).state.attempts = s.attempts + 1 := by
  rw [retry_of_forever s err t s.originalTimeouts hb hts hc]
  refine ⟨rfl, ?_, ?_, rfl⟩
  · simp [retryAfterWait, List.getLast?_eq_getLast s.originalTimeouts hne]
  · simp [retryAfterWait, List.length_append]

/-- Witness for C3: the forever operation with original sequence [500]
after its queued timeout was consumed; the next retry returns true and
keeps only the newest error. -/
theorem retry_forever_reuses_last_timeout_witness :
    budgetExceeded c3s 20 = false ∧ c3s.timeouts = []
    ∧ c3s.cachedTimeouts = some c3s.originalTimeouts
    ∧ ((retry c3s errY 20).result = true
        ∧ (retry c3s errY 20).state.errors = [errY]) :=
  ⟨rfl, rfl, rfl,
    (retry_forever_reuses_last_timeout c3s errY 20 rfl rfl rfl (by decide)).1,
    (retry_forever_reuses_last_timeout c3s errY 20 rfl rfl rfl (by decide)).2.2.1⟩

/-- C7 (code bug evidence): after a retry on an operation whose attempt()
configured no watchdog, the code nonetheless schedules the watchdog timer
(this.timeout becomes pending) and firing it dereferences the undefined
operationTimeoutFn (modelled as none). -/
theorem retry_schedules_watchdog_unconditionally :
    c7s.hasOperationTimeoutFn = false
    ∧ (retry c7s errX 10).result = true
    ∧ (retry c7s errX 10).state.timeoutPending = true
    ∧ (retry c7s errX 10).state.hasOperationTimeoutFn = false
    ∧ fireWatchdog (retry c7s errX 10).state = none :=
  ⟨rfl, rfl, rfl, rfl, rfl⟩

/-- C8 counterexample: succeed() does not cancel the retry/backoff timer;
on a state where that timer is pending it stays pending. -/
theorem succeed_keeps_retry_timer :
    c8s.timerPending = true ∧ (succeed c8s).timerPending = true :=
  ⟨rfl, rfl⟩

/-- C8 amended: succeed() cancels only the pending per-attempt watchdog
timer; the retry/backoff timer and every other field are left unchanged. -/
theorem succeed_clears_only_watchdog (s : RetryState) :
    (succeed s).timeoutPending = false
    ∧ (succeed s).timerPending = s.timerPending
    ∧ (succeed s).attempts = s.attempts
    ∧ (succeed s).errors = s.errors
    ∧ (succeed s).timeouts = s.timeouts
    ∧ (succeed s).originalTimeouts = s.originalTimeouts
    ∧ (succeed s).forever = s.forever
    ∧ (succeed s).maxRetryTime = s.maxRetryTime
    ∧ (succeed s).cachedTimeouts = s.cachedTimeouts
    ∧ (succeed s).operationStart = s.operationStart
    ∧ (succeed s).operationTimeout = s.operationTimeout
    ∧ (succeed s).hasOperationTimeoutFn = s.hasOperationTimeoutFn
    ∧ (succeed s).hasFn = s.hasFn :=
  ⟨rfl, rfl, rfl, rfl, rfl, rfl, rfl, rfl, rfl, rfl, rfl, rfl, rfl⟩

/-- C9: reset() sets attempts to 1 and restores remainingTimeouts to the
original timeout sequence, leaving errors and originalTimeouts (and all
other fields) unchanged. -/
theorem reset_restores_attempts_and_timeouts (s : RetryState) :
    (reset s).attempts = 1
    ∧ (reset s).timeouts = s.originalTimeouts
    ∧ (reset s).errors = s.errors
    ∧ (reset s).originalTimeouts = s.originalTimeouts
    ∧ (reset s).forever = s.forever
    ∧ (reset s).maxRetryTime = s.maxRetryTime
    ∧ (reset s).cachedTimeouts = s.cachedTimeouts
    ∧ (reset s).operationStart = s.operationStart
    ∧ (reset s).operationTimeout = s.operationTimeout
    ∧ (reset s).hasOperationTimeoutFn = s.hasOperationTimeoutFn
    ∧ (reset s).hasFn = s.hasFn
    ∧ (reset s).timeoutPending = s.timeoutPending
    ∧ (reset s).timerPending = s.timerPending :=
  ⟨rfl, rfl, rfl, rfl, rfl, rfl, rfl, rfl, rfl, rfl, rfl, rfl, rfl⟩

lemma createTimeout_le_maxTimeout (a : Nat) (p : OperationOptions) (r : ℚ) :
    leJs (createTimeout a p r) p.maxTimeout := by
  simp only [createTimeout]
  cases hm : p.maxTimeout with
  | none => simp [leJs, jsMin, hm]
  | some m => simp only [leJs, jsMin, hm]; exact min_le_right _ m

/-- C4: for every configuration passing the minTimeout <= maxTimeout check,
timeouts returns a sequence whose length is the resolved retries value (or
1 when forever is set and retries resolves to 0), sorted ascending, with
every element at most the resolved maxTimeout. -/
theorem timeouts_length_sorted_bounded (params : OperationOptions)
    (rand : Nat → ℚ) (h : timeoutsCheckFails params = false) :
    ∃ l, timeouts params rand = .ok l
      ∧ l.length = (if params.forever.getD false = true ∧ params.retries.getD 10 = 0
                    then 1 else params.retries.getD 10)
      ∧ l.Sorted (· ≤ ·)
      ∧ ∀ x ∈ l, leJs x params.maxTimeout := by
  simp only [timeouts, h, Bool.false_eq_true, if_false]
  refine ⟨_, rfl, ?_, List.sorted_insertionSort _ _, ?_⟩
  · rw [List.length_insertionSort]
    cases hF : params.forever.getD false with
    | false =>
        simp [hF]
    | true =>
        by_cases hR : params.retries.getD 10 = 0
        · simp [hF, hR]
        · have hbase : ((List.range (params.retries.getD 10)).map
              (fun i => createTimeout i
                { params with retries := some (params.retries.getD 10)
                              minTimeout := some (params.minTimeout.getD 1000)
                              forever := some (params.forever.getD false) }
                (rand i))).isEmpty = false := by
            simp [List.isEmpty_iff, List.map_eq_nil_iff, List.range_eq_nil, hR]
          simp [hF, hR, hbase]
  · intro x hx
    rw [List.mem_insertionSort] at hx
    have hform : ∀ y, (∃ k, y = createTimeout k
        { params with retries := some (params.retries.getD 10)
                      minTimeout := some (params.minTimeout.getD 1000)
                      forever := some (params.forever.getD false) }
        (rand k)) → leJs y params.maxTimeout := by
      rintro y ⟨k, rfl⟩
      exact createTimeout_le_maxTimeout k _ (rand k)
    apply hform
    by_cases hsplit : (params.forever.getD false
        && ((List.range (params.retries.getD 10)).map
          (fun i => createTimeout i
            { params with retries := some (params.retries.getD 10)
                          minTimeout := some (params.minTimeout.getD 1000)
                          forever := some (params.forever.getD false) }
            (rand i))).isEmpty) = true
    · rw [if_pos hsplit] at hx
      rcases List.mem_append.mp hx with hx | hx
      · rcases List.mem_map.mp hx with ⟨k, _, rfl⟩
        exact ⟨k, rfl⟩
      · rcases List.mem_singleton.mp hx with rfl
        exact ⟨params.retries.getD 10, rfl⟩
    · rw [if_neg hsplit] at hx
      rcases List.mem_map.mp hx with ⟨k, _, rfl⟩
      exact ⟨k, rfl⟩

/-- Witness for C4 at the all-defaults configuration: the check passes, so
timeouts yields a sequence of the promised length, sorted and bounded. -/
theorem timeouts_length_sorted_bounded_witness :
    timeoutsCheckFails defaultOpts = false
    ∧ ∃ l, timeouts defaultOpts zeroRand = .ok l
      ∧ l.length = (if defaultOpts.forever.getD false = true
                      ∧ defaultOpts.retries.getD 10 = 0
                    then 1 else defaultOpts.retries.getD 10)
      ∧ l.Sorted (· ≤ ·)
      ∧ ∀ x ∈ l, leJs x defaultOpts.maxTimeout :=
  ⟨rfl, timeouts_length_sorted_bounded defaultOpts zeroRand rfl⟩

/-- C5: with randomize false, createTimeout is deterministic in the random
draw and computes round(max(minTimeout, 1) * factor ^ attempt) clamped to
maxTimeout; with factor 2, minTimeout 1000 and no ceiling it is exactly
1000 * 2 ^ i. -/
theorem createTimeout_formula_deterministic (i : Nat)
    (params : OperationOptions) (rand : ℚ)
    (h : params.randomize.getD false = false) :
    createTimeout i params rand
      = jsMin ((round (max (params.minTimeout.getD 1000) 1
            * params.factor.getD 2 ^ i) : ℤ) : ℚ) params.maxTimeout
    ∧ createTimeout i c5opts rand = 1000 * 2 ^ i := by
  constructor
  · simp only [createTimeout, h, Bool.false_eq_true, if_false, one_mul]
  · simp only [createTimeout, c5opts, jsMin, Option.getD_some,
      Bool.false_eq_true, if_false, one_mul]
    have hmax : max (1000 : ℚ) 1 = 1000 := by norm_num
    rw [hmax]
    have hcast : (1000 : ℚ) * 2 ^ i = ((1000 * 2 ^ i : ℤ) : ℚ) := by
      push_cast
      ring
    rw [hcast, round_intCast]

/-- Witness for C5 at attempt index 3 with an arbitrary random draw: the
delay is exactly 1000 * 2 ^ 3. -/
theorem createTimeout_formula_deterministic_witness :
    c5opts.randomize.getD false = false
    ∧ createTimeout 3 c5opts 7 = 1000 * 2 ^ 3 :=
  ⟨rfl, (createTimeout_formula_deterministic 3 c5opts 7 rfl).2⟩

/-- C10: when options.maxRetryTime is absent or falsy, the constructed
operation has maxRetryTime Infinity (none), the budget guard is then never
taken for any clock reading, and any false return of retry comes only from
exhaustion of the timeouts with no forever cache. -/
theorem operation_falsy_maxRetryTime_unbounded (o : OperationOptions)
    (rand : Nat → ℚ) (op : RetryState)
    (h1 : truthyNum o.maxRetryTime = false)
    (h2 : operation o rand = .ok op) :
    op.maxRetryTime = none
    ∧ (∀ (s : RetryState) (t : ℚ), s.maxRetryTime = none →
        budgetExceeded s t = false)
    ∧ (∀ (s : RetryState) (e : Err) (t : ℚ), s.maxRetryTime = none →
        (retry s e t).result = false →
        s.timeouts = [] ∧ s.cachedTimeouts = none) := by
  have hbudget : ∀ (s : RetryState) (t : ℚ), s.maxRetryTime = none →
      budgetExceeded s t = false := by
    intro s t hmrt
    unfold budgetExceeded
    cases hos : s.operationStart with
    | none => rfl
    | some t0 => simp [jsGe, hmrt]
  refine ⟨?_, hbudget, ?_⟩
  · cases hts : timeouts o rand with
    | error msg =>
        rw [operation, hts] at h2
        exact absurd h2 (by simp [Except.map])
    | ok ts =>
        rw [operation, hts] at h2
        simp only [Except.map, Except.ok.injEq] at h2
        rw [← h2]
        simp [RetryOperation.new, h1]
  · intro s e t hmrt hf
    have hb := hbudget s t hmrt
    rcases hts : s.timeouts with _ | ⟨t0, rest⟩
    · rcases hc : s.cachedTimeouts with _ | cache
      · exact ⟨rfl, rfl⟩
      · rw [retry_of_forever s e t cache hb hts hc] at hf
        simp [retryAfterWait] at hf
    · rw [retry_of_shift s e t t0 rest hb hts] at hf
      simp [retryAfterWait] at hf

/-- Witness for C10: options with maxRetryTime = 0 and retries = 1 build an
operation whose maxRetryTime is Infinity. -/
theorem operation_falsy_maxRetryTime_unbounded_witness :
    truthyNum c10opts.maxRetryTime = false ∧ c10op.maxRetryTime = none :=
  ⟨rfl, (operation_falsy_maxRetryTime_unbounded c10opts zeroRand c10op rfl
      (by norm_num [operation, timeouts, timeoutsCheckFails, createTimeout,
        List.range_succ, round_eq, List.insertionSort, List.orderedInsert,
        zeroRand, jsMin, Except.map, RetryOperation.new, truthyNum, c10op,
        c10opts])).1⟩

/-! Lemmas for the getMainError refinement proof. -/

lemma foldr_max_concat (xs : List Nat) (b : Nat) :
    (xs ++ [b]).foldr max 0 = max (xs.foldr max 0) b := by
  induction xs with
  | nil => simp [Nat.max_comm]
  | cons a xs ih =>
      simp only [List.cons_append, List.foldr_cons, ih]
      omega

lemma foldr_max_le {xs : List Nat} {m : Nat} (h : ∀ a ∈ xs, a ≤ m) :
    xs.foldr max 0 ≤ m := by
  induction xs with
  | nil => simp
  | cons a xs ih =>
      simp only [List.foldr_cons]
      have h1 := h a (List.mem_cons_self a xs)
      have h2 := ih fun b hb => h b (List.mem_cons_of_mem a hb)
      omega

lemma le_foldr_max {xs : List Nat} {a : Nat} (h : a ∈ xs) :
    a ≤ xs.foldr max 0 := by
  induction xs with
  | nil => cases h
  | cons b xs ih =>
      simp only [List.foldr_cons]
      rcases List.mem_cons.mp h with rfl | h
      · omega
      · have := ih h
        omega

lemma find?_congr_pred {α : Type} (l : List α) (p q : α → Bool)
    (h : ∀ a ∈ l, p a = q a) : l.find? p = l.find? q := by
  induction l with
  | nil => rfl
  | cons a l ih =>
      have ha := h a (List.mem_cons_self a l)
      have htail := ih fun b hb => h b (List.mem_cons_of_mem a hb)
      cases hq : q a with
      | true =>
          rw [List.find?_cons_of_pos _ (ha.trans hq),
            List.find?_cons_of_pos _ hq]
      | false =>
          rw [List.find?_cons_of_neg, List.find?_cons_of_neg]
          · exact htail
          · simp [hq]
          · simp [ha.trans hq]

lemma msgCount_concat (l : List Err) (e : Err) (m : String) :
    msgCount (l ++ [e]) m = msgCount l m + (if e.message == m then 1 else 0) := by
  simp [msgCount, List.countP_append, List.countP_cons]

lemma msgCount_self_concat (l : List Err) (e : Err) :
    msgCount (l ++ [e]) e.message = msgCount l e.message + 1 := by
  simp [msgCount_concat]

lemma msgCount_concat_ne (l : List Err) (e x : Err) (h : e.message ≠ x.message) :
    msgCount (l ++ [e]) x.message = msgCount l x.message := by
  simp [msgCount_concat, h]

lemma maxMsgCount_concat (l : List Err) (e : Err) :
    maxMsgCount (l ++ [e]) = max (maxMsgCount l) (msgCount l e.message + 1) := by
  unfold maxMsgCount
  rw [List.map_append, List.map_singleton, foldr_max_concat, msgCount_self_concat]
  apply Nat.le_antisymm
  · apply Nat.max_le.mpr
    constructor
    · apply foldr_max_le
      intro a ha
      rcases List.mem_map.mp ha with ⟨x, hx, rfl⟩
      by_cases hme : e.message = x.message
      · rw [← hme, msgCount_self_concat]
        exact Nat.le_max_right _ _
      · rw [msgCount_concat_ne l e x hme]
        have hmem : msgCount l x.message
            ∈ l.map fun y => msgCount l y.message :=
          List.mem_map_of_mem _ hx
        exact le_trans (le_foldr_max hmem) (Nat.le_max_left _ _)
    · exact Nat.le_max_right _ _
  · apply Nat.max_le.mpr
    constructor
    · apply foldr_max_le
      intro a ha
      rcases List.mem_map.mp ha with ⟨x, hx, rfl⟩
      have hle : msgCount l x.message ≤ msgCount (l ++ [e]) x.message := by
        rw [msgCount_concat]
        omega
      have hmem : msgCount (l ++ [e]) x.message
          ∈ l.map fun y => msgCount (l ++ [e]) y.message :=
        List.mem_map_of_mem _ hx
      exact le_trans (le_trans hle (le_foldr_max hmem)) (Nat.le_max_left _ _)
    · exact Nat.le_max_right _ _

lemma mainErrorLoop_inv (l : List Err) :
    (l.foldl getMainErrorStep initMainErrorState).counts
        = (fun m => msgCount l m)
    ∧ (l.foldl getMainErrorStep initMainErrorState).mainErrorCount
        = maxMsgCount l
    ∧ (l.foldl getMainErrorStep initMainErrorState).mainError
        = mainErrorSpec l := by
  induction l using List.reverseRecOn with
  | nil => exact ⟨funext fun m => rfl, rfl, rfl⟩
  | append_singleton l e ih =>
      obtain ⟨hc, hn, hm⟩ := ih
      rw [List.foldl_append, List.foldl_cons, List.foldl_nil]
      simp only [getMainErrorStep, hc, hn]
      split_ifs with hge
      · refine ⟨funext fun m => ?_, ?_, ?_⟩
        · by_cases hme : m = e.message
          · subst hme
            simp [msgCount_self_concat]
          · have hne : (e.message == m) = false := by
              simp [Ne.symm hme]
            simp [hme, msgCount_concat, hne]
        · dsimp only
          rw [maxMsgCount_concat]
          omega
        · unfold mainErrorSpec
          rw [List.reverse_append]
          simp only [List.reverse_singleton, List.singleton_append]
          rw [List.find?_cons_of_pos]
          simp only [beq_iff_eq, msgCount_self_concat, maxMsgCount_concat]
          omega
      · refine ⟨funext fun m => ?_, ?_, ?_⟩
        · by_cases hme : m = e.message
          · subst hme
            simp [msgCount_self_concat]
          · have hne : (e.message == m) = false := by
              simp [Ne.symm hme]
            simp [hme, msgCount_concat, hne]
        · dsimp only
          rw [maxMsgCount_concat]
          omega
        · rw [hm]
          unfold mainErrorSpec
          rw [List.reverse_append]
          simp only [List.reverse_singleton, List.singleton_append]
          rw [List.find?_cons_of_neg]
          · apply find?_congr_pred
            intro x hx
            rw [List.mem_reverse] at hx
            by_cases hme : e.message = x.message
            · have h1 : msgCount (l ++ [e]) x.message
                  = msgCount l e.message + 1 := by
                rw [← hme, msgCount_self_concat]
              have h2 : msgCount l x.message = msgCount l e.message := by
                rw [← hme]
              have e1 : (msgCount l x.message == maxMsgCount l) = false := by
                simp only [beq_eq_false_iff_ne, ne_eq]
                omega
              have e2 : (msgCount (l ++ [e]) x.message
                  == maxMsgCount (l ++ [e])) = false := by
                simp only [beq_eq_false_iff_ne, ne_eq, h1, maxMsgCount_concat]
                omega
              rw [e1, e2]
            · rw [msgCount_concat_ne l e x hme, maxMsgCount_concat]
              have hmax : max (maxMsgCount l) (msgCount l e.message + 1)
                  = maxMsgCount l := by
                omega
              rw [hmax]
          · simp only [beq_iff_eq, msgCount_self_concat, maxMsgCount_concat]
            omega

/-- C6: getMainError returns the error whose message text occurs most often,
ties among equally frequent messages broken in favor of the last-seen error
of a maximum-count message, nothing on an empty list; on messages
A, B, A, C, B it returns the error carrying message B that was inserted
last. -/
theorem getMainError_most_frequent_last_tie :
    (∀ errors : List Err, getMainError errors = mainErrorSpec errors)
    ∧ getMainError [] = none
    ∧ getMainError [⟨"A", 1⟩, ⟨"B", 2⟩, ⟨"A", 3⟩, ⟨"C", 4⟩, ⟨"B", 5⟩]
        = some ⟨"B", 5⟩ :=
  ⟨fun errors => (mainErrorLoop_inv errors).2.2, rfl, by decide⟩

end Retried
